import Mathlib

/-!
Verification of the detr-mmap inference pipeline core
(crates/inference-cpp) against its natural-language specification.

The C++ sources are shallowly embedded: machine integers become `Nat`
(with an explicit `% 2 ^ 64` where the `uint64_t` sequence counter is
stored), the memory-mapped byte region becomes a `List Nat`, and the
external flatbuffers library (serialization / structural verification)
is a function parameter of the operations that call into it.
-/

/-- Size of the atomic sequence header at the start of every shared
slot (`HEADER_SIZE = 8` in detection_writer.hpp / frame_reader.hpp). -/
def HEADER_SIZE : Nat := 8

/-- Modulus of the 64-bit sequence counter (`uint64_t`). -/
def U64_MOD : Nat := 2 ^ 64

/-- Default size of a freshly created detection buffer
(`DEFAULT_BUFFER_SIZE = 1024 * 1024` in detection_writer.cpp). -/
def DEFAULT_BUFFER_SIZE : Nat := 1024 * 1024

/-- State of one memory-mapped shared slot as seen by the
`DetectionWriter`: the mapping size (`mmap_size_`), the 64-bit
sequence counter stored in bytes `[0, 8)`, and the payload bytes at
offset `HEADER_SIZE`. -/
structure Slot where
  size : Nat
  seq : Nat
  payload : List Nat
  deriving Repr, DecidableEq

/-- Effect of `memcpy(payload_ptr, src, src.len)` on the payload
region: the first `src.length` bytes are overwritten, the rest keep
their previous contents. -/
def writeBytesAt (dst src : List Nat) : List Nat :=
  src ++ dst.drop src.length

/-- DetectionWriter::write (detection_writer.cpp, lines 108-149),
after the flatbuffer for the record has been built.  The serialized
record bytes `ser` (produced by the external flatbuffers builder) are
a parameter.  The code checks `HEADER_SIZE + builder.GetSize() >
mmap_size_` and returns `false` without touching the mapping;
otherwise it copies the payload at offset 8 and release-stores
`old_seq + 1` (a `uint64_t`, hence modulo `2 ^ 64`). -/
def DetectionWriter.write (st : Slot) (ser : List Nat) : Slot × Bool :=
  if HEADER_SIZE + ser.length > st.size then
    (st, false)
  else
    ({ st with
        payload := writeBytesAt st.payload ser,
        seq := (st.seq + 1) % U64_MOD }, true)

/-- DetectionWriter::sequence (detection_writer.cpp, lines 151-154):
acquire-load of the counter. -/
def DetectionWriter.sequence (st : Slot) : Nat := st.seq

/-- The relevant content of a backing file for
`DetectionWriter::with_path`: its size and the sequence counter (and
payload) currently stored in it. -/
structure BackingFile where
  size : Nat
  seq : Nat
  payload : List Nat
  deriving Repr, DecidableEq

/-- DetectionWriter::with_path (detection_writer.cpp, lines 57-106),
success path.  `file = none` models `open` failing with `ENOENT`: the
file is created and `ftruncate`d to `DEFAULT_BUFFER_SIZE` (zero
filled).  After mapping, the sequence is stored as 0 exactly when
`st.st_size == DEFAULT_BUFFER_SIZE` — the creation heuristic used by
the source. -/
def DetectionWriter.with_path (file : Option BackingFile) : Slot :=
  let opened : Slot :=
    match file with
    | none =>
        { size := DEFAULT_BUFFER_SIZE, seq := 0,
          payload := List.replicate (DEFAULT_BUFFER_SIZE - HEADER_SIZE) 0 }
    | some f => { size := f.size, seq := f.seq, payload := f.payload }
  if opened.size = DEFAULT_BUFFER_SIZE then { opened with seq := 0 } else opened

/-- Iterated `DetectionWriter::write` calls starting from a slot
state: the slot state after a trace of serialized records has been
submitted. -/
def DetectionWriter.runWrites (st : Slot) (calls : List (List Nat)) : Slot :=
  calls.foldl (fun s ser => (DetectionWriter.write s ser).1) st

/-- The value a `sequence()` call returns after the first `i` write
calls of a trace. -/
def DetectionWriter.seqAt (st : Slot) (calls : List (List Nat)) (i : Nat) : Nat :=
  DetectionWriter.sequence (DetectionWriter.runWrites st (calls.take i))

/-- Shared memory of the frame slot as the reader and a concurrent
writer see it: the 64-bit sequence counter (bytes `[0, 8)` of the
mapping) and the payload bytes at offset `HEADER_SIZE`. -/
structure SharedMem where
  seq : Nat
  data : List Nat
  deriving Repr, DecidableEq

/-- One micro-step of a writer publication: copying one payload byte
(step 2 of the publication protocol) or the final release-store of
the incremented sequence (step 3). -/
inductive WriterStep where
  | writeByte (i : Nat) (v : Nat)
  | bumpSeq
  deriving Repr, DecidableEq

/-- Effect of one writer micro-step on the shared memory. -/
def applyStep (m : SharedMem) : WriterStep → SharedMem
  | .writeByte i v => { m with data := m.data.set i v }
  | .bumpSeq => { m with seq := (m.seq + 1) % U64_MOD }

/-- Shared memory after a sequence of writer micro-steps. -/
def applySteps (m : SharedMem) (l : List WriterStep) : SharedMem :=
  l.foldl applyStep m

/-- The publication protocol of DetectionWriter::write as micro-steps:
copy every byte of the serialized record to the payload region in
order, then release-store the incremented sequence counter. -/
def publishSteps (record : List Nat) : List WriterStep :=
  (record.enum.map fun p => WriterStep.writeByte p.1 p.2) ++ [WriterStep.bumpSeq]

/-- FrameReader::get_frame (frame_reader.cpp, lines 94-122).  The
reader performs three shared-memory accesses: the first acquire-load
of the sequence (`seq1`, taken from snapshot `m1`), the payload read
at offset `HEADER_SIZE` (from snapshot `m2`), and the second
acquire-load (`seq2`, from snapshot `m3`).  Under a concurrent
writer the three snapshots may differ; a quiescent call has
`m1 = m2 = m3`.  The flatbuffers structural verifier is the external
parameter `verify`; on success the call returns the verified view of
the payload region. -/
def FrameReader.get_frame (verify : List Nat → Bool)
    (m1 m2 m3 : SharedMem) : Option (List Nat) :=
  let seq1 := m1.seq
  if seq1 = 0 then
    none
  else
    let buffer := m2.data
    let seq2 := m3.seq
    if seq1 ≠ seq2 then
      none
    else if verify buffer then
      some buffer
    else
      none

/-- Transform parameters (postprocessing.hpp).  `orig_width` and
`orig_height` are `uint32_t`; the three float fields are embedded as
rationals. -/
structure TransformParams where
  orig_width : Nat
  orig_height : Nat
  scale : ℚ
  offset_x : ℚ
  offset_y : ℚ
  deriving Repr, DecidableEq

/-- Bounding box (detection_writer.hpp): four coordinates and a
confidence as floats (embedded as rationals), and a `uint32_t` class
id. -/
structure BoundingBox where
  x1 : ℚ
  y1 : ℚ
  x2 : ℚ
  y2 : ℚ
  confidence : ℚ
  class_id : Nat
  deriving Repr, DecidableEq

/-- Raw inference output (tensorrt_backend.hpp): `labels` are
`int64_t`, `boxes` is the flattened `[num_detections, 4]` float
array, `scores` the float confidence array. -/
structure InferenceOutput where
  labels : List ℤ
  boxes : List ℚ
  scores : List ℚ
  num_detections : Nat
  deriving Repr, DecidableEq

/-- C++ `std::clamp(v, lo, hi)` for `lo ≤ hi`. -/
def rclamp (v lo hi : ℚ) : ℚ := max lo (min v hi)

/-- C++ `static_cast<uint32_t>` applied to an `int64_t` value:
reduction modulo `2 ^ 32`. -/
def castToUInt32 (x : ℤ) : Nat := (x % (2 ^ 32 : ℤ)).toNat

/-- PostProcessor::parse_detections (postprocessing.cpp, lines
10-52): iterate over the raw detections in order, drop those whose
score is below the confidence threshold, invert the letterbox
transform on the four coordinates, clamp into the original image
bounds and push the resulting box. -/
def PostProcessor.parse_detections (confidence_threshold : ℚ)
    (output : InferenceOutput) (transform : TransformParams) : List BoundingBox :=
  (List.range output.num_detections).foldl (fun detections i =>
    let confidence := output.scores.getD i 0
    if confidence < confidence_threshold then
      detections
    else
      let box_x1 := output.boxes.getD (i * 4 + 0) 0
      let box_y1 := output.boxes.getD (i * 4 + 1) 0
      let box_x2 := output.boxes.getD (i * 4 + 2) 0
      let box_y2 := output.boxes.getD (i * 4 + 3) 0
      let tx1 := (box_x1 - transform.offset_x) / transform.scale
      let ty1 := (box_y1 - transform.offset_y) / transform.scale
      let tx2 := (box_x2 - transform.offset_x) / transform.scale
      let ty2 := (box_y2 - transform.offset_y) / transform.scale
      let x1 := rclamp tx1 0 (transform.orig_width : ℚ)
      let y1 := rclamp ty1 0 (transform.orig_height : ℚ)
      let x2 := rclamp tx2 0 (transform.orig_width : ℚ)
      let y2 := rclamp ty2 0 (transform.orig_height : ℚ)
      detections ++ [{ x1 := x1, y1 := y1, x2 := x2, y2 := y2,
                       confidence := confidence,
                       class_id := castToUInt32 (output.labels.getD i 0) }]
    ) []

/-- BridgeSemaphore::try_wait (semaphore.cpp, lines 100-116) on a
queue holding `q` tokens: consumes one token iff the queue is
non-empty; returns whether a token was consumed and the new token
count. -/
def BridgeSemaphore.try_wait (q : Nat) : Bool × Nat :=
  if 0 < q then (true, q - 1) else (false, q)

/-- BridgeSemaphore::drain (semaphore.cpp, lines 118-124): repeatedly
`try_wait` until it fails, counting the tokens consumed.  Returns the
count and the remaining token count. -/
def BridgeSemaphore.drain (q : Nat) : Nat × Nat :=
  if h : (BridgeSemaphore.try_wait q).1 then
    let rest := BridgeSemaphore.drain (BridgeSemaphore.try_wait q).2
    (rest.1 + 1, rest.2)
  else
    (0, q)
termination_by q
decreasing_by
  simp only [BridgeSemaphore.try_wait] at *
  split at h <;> simp_all

/-- BridgeSemaphore::wait (semaphore.cpp, lines 81-98) on a queue
holding `q` tokens: consumes one token when available; `none` models
the call blocking on an empty queue. -/
def BridgeSemaphore.wait (q : Nat) : Option Nat :=
  if 0 < q then some (q - 1) else none

/-- The metadata and pixel payload of a frame record, as the driver
extracts them from the flatbuffer view (main.cpp, lines 131-143).
`pixels = none` models a record whose pixel vector is absent. -/
structure FrameRec where
  frame_number : Nat
  timestamp_ns : Nat
  camera_id : Nat
  width : Nat
  height : Nat
  isBGR : Bool
  pixels : Option (List Nat)
  deriving Repr, DecidableEq

/-- Driver state across event-loop iterations (main.cpp, lines
103-106 and the shared detection slot / controller signal queue it
writes to). -/
structure LoopState where
  queue : Nat
  slot : Slot
  controller_posts : Nat
  frames_processed : Nat
  frames_skipped : Nat
  total_detections : Nat
  deriving Repr, DecidableEq

/-- One iteration of the inference event loop (main.cpp, lines
108-218).  External effects are parameters: `frame` is what
`frame_reader.get_frame()` returned (`none` on a torn read or no
data), `scale`, `off_x`, `off_y` are the letterbox parameters the
preprocessor computed, `infer` is the raw output of the TensorRT
backend (`none` on GPU failure), `serialize` is the flatbuffers
serialization of a detection record, and `postOk` tells whether
`controller_semaphore.post()` succeeded.  The iteration starts at
`frame_semaphore.wait()`; a `none` result models the call blocking
(queue empty).  Note that a failed `detection_writer.write` only
logs: the iteration still counts the detections, posts the
controller signal and increments `frames_processed`. -/
def loopIter (serialize : Nat → Nat → Nat → List BoundingBox → List Nat)
    (st : LoopState) (frame : Option FrameRec) (scale off_x off_y : ℚ)
    (infer : Option InferenceOutput) (postOk : Bool) : LoopState :=
  match BridgeSemaphore.wait st.queue with
  | none => st
  | some q1 =>
    let dr := BridgeSemaphore.drain q1
    let skipped := dr.1
    let st1 := { st with
        queue := dr.2,
        frames_skipped :=
          if 0 < skipped then st.frames_skipped + skipped else st.frames_skipped }
    match frame with
    | none => st1
    | some fr =>
      match fr.pixels with
      | none => st1
      | some _ =>
        match infer with
        | none => st1
        | some output =>
          let transform : TransformParams :=
            { orig_width := fr.width, orig_height := fr.height,
              scale := scale, offset_x := off_x, offset_y := off_y }
          let detections := PostProcessor.parse_detections (1 / 2) output transform
          let ser := serialize fr.frame_number fr.timestamp_ns fr.camera_id detections
          let wr := DetectionWriter.write st1.slot ser
          let st2 := { st1 with
              slot := wr.1,
              total_detections := st1.total_detections + detections.length }
          let st3 :=
            if postOk then { st2 with controller_posts := st2.controller_posts + 1 }
            else st2
          { st3 with frames_processed := st3.frames_processed + 1 }

/-- Modelled from the spec (§4.G): the postprocessing stage as the
spec words it — keep exactly the raw detections whose score is at
least the threshold, in the engine's original order, map each
coordinate by `orig = (letterbox - offset) / scale`, clamp into
`[0, orig_dim]`, and carry the raw score through.  Used as the
comparison point for the refinement claim about
PostProcessor::parse_detections. -/
def parse_detections_specSide (confidence_threshold : ℚ)
    (output : InferenceOutput) (transform : TransformParams) : List BoundingBox :=
  ((List.range output.num_detections).filter
      (fun i => confidence_threshold ≤ output.scores.getD i 0)).map
    (fun i =>
      { x1 := rclamp ((output.boxes.getD (i * 4 + 0) 0 - transform.offset_x) / transform.scale)
            0 (transform.orig_width : ℚ),
        y1 := rclamp ((output.boxes.getD (i * 4 + 1) 0 - transform.offset_y) / transform.scale)
            0 (transform.orig_height : ℚ),
        x2 := rclamp ((output.boxes.getD (i * 4 + 2) 0 - transform.offset_x) / transform.scale)
            0 (transform.orig_width : ℚ),
        y2 := rclamp ((output.boxes.getD (i * 4 + 3) 0 - transform.offset_y) / transform.scale)
            0 (transform.orig_height : ℚ),
        confidence := output.scores.getD i 0,
        class_id := castToUInt32 (output.labels.getD i 0) })

theorem write_eq_of_fit (st : Slot) (ser : List Nat)
    (h : ¬ HEADER_SIZE + ser.length > st.size) :
    DetectionWriter.write st ser =
      ({ st with payload := writeBytesAt st.payload ser,
                 seq := (st.seq + 1) % U64_MOD }, true) := by
  unfold DetectionWriter.write
  rw [if_neg h]

theorem write_snd_true_seq (st : Slot) (ser : List Nat)
    (h : (DetectionWriter.write st ser).2 = true) :
    (DetectionWriter.write st ser).1.seq = (st.seq + 1) % U64_MOD := by
  by_cases hc : HEADER_SIZE + ser.length > st.size
  · simp only [DetectionWriter.write, if_pos hc] at h
    exact absurd h (by simp)
  · simp only [DetectionWriter.write, if_neg hc]

theorem write_seq_le (st : Slot) (ser : List Nat) :
    (DetectionWriter.write st ser).1.seq ≤ st.seq + 1 := by
  unfold DetectionWriter.write
  split
  · simp
  · simpa using Nat.mod_le (st.seq + 1) U64_MOD

theorem write_seq_ge (st : Slot) (ser : List Nat) (h : st.seq + 1 < U64_MOD) :
    st.seq ≤ (DetectionWriter.write st ser).1.seq := by
  unfold DetectionWriter.write
  split
  · simp
  · simp only
    rw [Nat.mod_eq_of_lt h]
    omega

theorem runWrites_nil (st : Slot) : DetectionWriter.runWrites st [] = st := rfl

theorem runWrites_cons (st : Slot) (c : List Nat) (cs : List (List Nat)) :
    DetectionWriter.runWrites st (c :: cs) =
      DetectionWriter.runWrites (DetectionWriter.write st c).1 cs := rfl

theorem runWrites_append (st : Slot) (a b : List (List Nat)) :
    DetectionWriter.runWrites st (a ++ b) =
      DetectionWriter.runWrites (DetectionWriter.runWrites st a) b := by
  unfold DetectionWriter.runWrites
  exact List.foldl_append _ _ _ _

theorem runWrites_seq_le (calls : List (List Nat)) (st : Slot) :
    (DetectionWriter.runWrites st calls).seq ≤ st.seq + calls.length := by
  induction calls generalizing st with
  | nil => simp [runWrites_nil]
  | cons c cs ih =>
    rw [runWrites_cons]
    calc (DetectionWriter.runWrites (DetectionWriter.write st c).1 cs).seq
        ≤ (DetectionWriter.write st c).1.seq + cs.length := ih _
      _ ≤ st.seq + 1 + cs.length := by
          have := write_seq_le st c
          omega
      _ = st.seq + (c :: cs).length := by simp; omega

theorem runWrites_seq_ge (calls : List (List Nat)) (st : Slot)
    (h : st.seq + calls.length < U64_MOD) :
    st.seq ≤ (DetectionWriter.runWrites st calls).seq := by
  induction calls generalizing st with
  | nil => simp [runWrites_nil]
  | cons c cs ih =>
    rw [runWrites_cons]
    have h1 : st.seq + 1 < U64_MOD := by
      simp only [List.length_cons] at h
      omega
    have h2 : (DetectionWriter.write st c).1.seq + cs.length < U64_MOD := by
      have := write_seq_le st c
      simp only [List.length_cons] at h
      omega
    calc st.seq ≤ (DetectionWriter.write st c).1.seq := write_seq_ge st c h1
      _ ≤ (DetectionWriter.runWrites (DetectionWriter.write st c).1 cs).seq := ih _ h2

/-- C2: a DetectionWriter::write call whose serialized record
exceeds the usable payload region (mapping size minus the 8-byte
header) returns false, leaves every byte of the slot unchanged, and
leaves the value that `sequence()` returns unchanged. -/
theorem write_oversize_rejected_no_mutation (st : Slot) (ser : List Nat)
    (h : st.size < HEADER_SIZE + ser.length) :
    DetectionWriter.write st ser = (st, false) ∧
    (DetectionWriter.write st ser).1.payload = st.payload ∧
    DetectionWriter.sequence (DetectionWriter.write st ser).1 =
      DetectionWriter.sequence st := by
  have hw : DetectionWriter.write st ser = (st, false) := by
    unfold DetectionWriter.write
    rw [if_pos h]
  exact ⟨hw, by rw [hw], by rw [hw]⟩

theorem write_oversize_rejected_no_mutation_witness :
    DetectionWriter.write ⟨10, 3, [0, 0]⟩ [1, 1, 1] = (⟨10, 3, [0, 0]⟩, false) ∧
    (DetectionWriter.write ⟨10, 3, [0, 0]⟩ [1, 1, 1]).1.payload = [0, 0] ∧
    DetectionWriter.sequence (DetectionWriter.write ⟨10, 3, [0, 0]⟩ [1, 1, 1]).1 =
      DetectionWriter.sequence ⟨10, 3, [0, 0]⟩ :=
  write_oversize_rejected_no_mutation ⟨10, 3, [0, 0]⟩ [1, 1, 1] (by decide)

/-- C3: along any trace of write calls that does not exhaust the
64-bit counter range, every successful DetectionWriter::write
increments the value `sequence()` returns by exactly one, and for
any two `sequence()` reads the later one is at least the earlier
one. -/
theorem write_seq_increment_and_monotone (st : Slot) (calls : List (List Nat))
    (hov : st.seq + calls.length < U64_MOD) :
    (∀ i, i < calls.length →
      (DetectionWriter.write (DetectionWriter.runWrites st (calls.take i))
        (calls.getD i [])).2 = true →
      DetectionWriter.seqAt st calls (i + 1) = DetectionWriter.seqAt st calls i + 1) ∧
    (∀ i j, i ≤ j →
      DetectionWriter.seqAt st calls i ≤ DetectionWriter.seqAt st calls j) := by
  constructor
  · intro i hi hsucc
    have htake : calls.take (i + 1) = calls.take i ++ [calls.getD i []] := by
      rw [List.take_succ]
      congr 1
      rw [List.getD_eq_getElem _ _ hi]
      simp [List.getElem?_eq_getElem hi]
    unfold DetectionWriter.seqAt DetectionWriter.sequence
    rw [htake, runWrites_append]
    have hseq := write_snd_true_seq _ _ hsucc
    have hle : (DetectionWriter.runWrites st (calls.take i)).seq ≤ st.seq + i := by
      have := runWrites_seq_le (calls.take i) st
      have : (calls.take i).length ≤ i := by simp
      have := runWrites_seq_le (calls.take i) st
      simp only [List.length_take] at this
      omega
    have hlt : (DetectionWriter.runWrites st (calls.take i)).seq + 1 < U64_MOD := by
      omega
    show (DetectionWriter.runWrites
        (DetectionWriter.runWrites st (calls.take i)) [calls.getD i []]).seq = _
    rw [runWrites_cons, runWrites_nil]
    rw [hseq, Nat.mod_eq_of_lt hlt]
  · intro i j hij
    unfold DetectionWriter.seqAt DetectionWriter.sequence
    have hsplit : calls.take i ++ (calls.take j).drop i = calls.take j := by
      conv_rhs => rw [← List.take_append_drop i (calls.take j)]
      rw [List.take_take, Nat.min_eq_left hij]
    rw [← hsplit, runWrites_append]
    apply runWrites_seq_ge
    have h1 := runWrites_seq_le (calls.take i) st
    have h2 : (calls.take i).length + ((calls.take j).drop i).length =
        (calls.take j).length := by
      rw [← List.length_append, hsplit]
    have h3 : (calls.take j).length ≤ calls.length := by simp
    simp only [List.length_take] at h1 h2 h3 ⊢
    omega

theorem write_seq_increment_and_monotone_witness :
    DetectionWriter.seqAt ⟨20, 0, []⟩ [[1], [2]] 1 =
      DetectionWriter.seqAt ⟨20, 0, []⟩ [[1], [2]] 0 + 1 ∧
    DetectionWriter.seqAt ⟨20, 0, []⟩ [[1], [2]] 1 ≤
      DetectionWriter.seqAt ⟨20, 0, []⟩ [[1], [2]] 2 :=
  ⟨(write_seq_increment_and_monotone ⟨20, 0, []⟩ [[1], [2]]
      (by norm_num [U64_MOD])).1 0 (by norm_num) (by decide),
   (write_seq_increment_and_monotone ⟨20, 0, []⟩ [[1], [2]]
      (by norm_num [U64_MOD])).2 1 2 (by norm_num)⟩

/-- C7 counterexample: a backing file that already exists with size
exactly `DEFAULT_BUFFER_SIZE` (1 MiB — the size every normally
created buffer has) and stored sequence 7 is re-zeroed by
DetectionWriter::with_path, so opening a pre-existing file does not
always leave the stored sequence counter unchanged. -/
theorem with_path_rezeros_existing_default_size_file :
    (DetectionWriter.with_path (some ⟨1024 * 1024, 7, []⟩)).seq = 0 ∧ (7 : Nat) ≠ 0 := by
  constructor
  · simp [DetectionWriter.with_path, DEFAULT_BUFFER_SIZE]
  · decide

/-- C7 (amended): DetectionWriter::with_path stores sequence 0
exactly when the mapped size equals the default buffer size (1 MiB):
a freshly created file (which is truncated to that size) is always
zeroed, but so is a pre-existing file whose size happens to equal the
default; a pre-existing file of any other size keeps its stored
sequence counter. -/
theorem with_path_zeroes_iff_default_size (file : Option BackingFile) :
    (file = none → (DetectionWriter.with_path file).seq = 0) ∧
    (∀ f, file = some f → f.size = DEFAULT_BUFFER_SIZE →
      (DetectionWriter.with_path file).seq = 0) ∧
    (∀ f, file = some f → f.size ≠ DEFAULT_BUFFER_SIZE →
      (DetectionWriter.with_path file).seq = f.seq) := by
  refine ⟨?_, ?_, ?_⟩
  · rintro rfl
    simp [DetectionWriter.with_path]
  · rintro f rfl hsz
    simp [DetectionWriter.with_path, hsz]
  · rintro f rfl hsz
    simp [DetectionWriter.with_path, hsz]

theorem with_path_zeroes_iff_default_size_witness :
    (DetectionWriter.with_path none).seq = 0 ∧
    (DetectionWriter.with_path (some ⟨1024 * 1024, 5, []⟩)).seq = 0 ∧
    (DetectionWriter.with_path (some ⟨4096, 5, []⟩)).seq = 5 :=
  ⟨(with_path_zeroes_iff_default_size none).1 rfl,
   (with_path_zeroes_iff_default_size (some ⟨1024 * 1024, 5, []⟩)).2.1 _ rfl (by decide),
   (with_path_zeroes_iff_default_size (some ⟨4096, 5, []⟩)).2.2 _ rfl (by decide)⟩

/-- C8: FrameReader::get_frame returns nothing exactly when the
first sequence load is zero, the two sequence loads differ, or the
payload fails the structural verifier; in every other case it
returns the view of the payload region at offset 8. -/
theorem get_frame_none_iff (verify : List Nat → Bool) (m1 m2 m3 : SharedMem) :
    (FrameReader.get_frame verify m1 m2 m3 = none ↔
      m1.seq = 0 ∨ m1.seq ≠ m3.seq ∨ verify m2.data = false) ∧
    (m1.seq ≠ 0 → m1.seq = m3.seq → verify m2.data = true →
      FrameReader.get_frame verify m1 m2 m3 = some m2.data) := by
  constructor
  · unfold FrameReader.get_frame
    by_cases h1 : m1.seq = 0
    · simp [h1]
    · by_cases h2 : m1.seq = m3.seq
      · by_cases h3 : verify m2.data
        · simp [h1, h2, h3]
        · simp [h1, h2, h3]
      · simp [h1, h2]
  · intro h1 h2 h3
    unfold FrameReader.get_frame
    simp only [← h2]
    simp [h1, h3]

theorem get_frame_none_iff_witness :
    (FrameReader.get_frame (fun b => b.length == 2) ⟨0, [9, 9]⟩ ⟨0, [9, 9]⟩ ⟨0, [9, 9]⟩ =
        none ↔ (0 : Nat) = 0 ∨ (0 : Nat) ≠ (0 : Nat) ∨
          ((fun (b : List Nat) => b.length == 2) [9, 9]) = false) ∧
    ((0 : Nat) ≠ 0 → (0 : Nat) = (0 : Nat) →
      ((fun (b : List Nat) => b.length == 2) [9, 9]) = true →
      FrameReader.get_frame (fun b => b.length == 2) ⟨0, [9, 9]⟩ ⟨0, [9, 9]⟩ ⟨0, [9, 9]⟩ =
        some [9, 9]) :=
  get_frame_none_iff (fun b => b.length == 2) ⟨0, [9, 9]⟩ ⟨0, [9, 9]⟩ ⟨0, [9, 9]⟩

/-- C1 (code bug witness): the publication protocol does not mark a
publication in progress — the sequence counter is bumped only after
the payload copy — so a reader whose whole call lands inside step 2
of a publication sees two equal sequence loads and accepts the
payload if it passes structural verification.  Concretely: the slot
holds record `[1, 1]` at sequence 1; a writer republishing `[2, 2]`
has copied exactly its first byte; the reader then observes sequence
1 twice around payload `[2, 1]` and returns that mixture of the two
writes, although `[2, 1]` is neither the old nor the new record.
The structural verifier cannot help, because the mixture has the
same length and shape as a genuine record.  After the publication
completes, the slot holds `[2, 2]` at sequence 2 and a quiescent
read returns it. -/
theorem get_frame_accepts_mid_publication_mixture :
    (applySteps ⟨1, [1, 1]⟩ ((publishSteps [2, 2]).take 1) = ⟨1, [2, 1]⟩) ∧
    (FrameReader.get_frame (fun b => b.length == 2)
      ⟨1, [2, 1]⟩ ⟨1, [2, 1]⟩ ⟨1, [2, 1]⟩ = some [2, 1]) ∧
    ([2, 1] : List Nat) ≠ [1, 1] ∧ ([2, 1] : List Nat) ≠ [2, 2] ∧
    (applySteps ⟨1, [1, 1]⟩ (publishSteps [2, 2]) = ⟨2, [2, 2]⟩) ∧
    (FrameReader.get_frame (fun b => b.length == 2)
      ⟨2, [2, 2]⟩ ⟨2, [2, 2]⟩ ⟨2, [2, 2]⟩ = some [2, 2]) := by
  refine ⟨?_, ?_, ?_, ?_, ?_, ?_⟩ <;> decide

/-- One iteration of the parse_detections loop as an optional output:
`none` when the detection is dropped by the confidence filter, the
pushed box otherwise. -/
def parseStep (confidence_threshold : ℚ) (output : InferenceOutput)
    (transform : TransformParams) (i : Nat) : Option BoundingBox :=
  if output.scores.getD i 0 < confidence_threshold then none
  else some
    { x1 := rclamp ((output.boxes.getD (i * 4 + 0) 0 - transform.offset_x) / transform.scale)
        0 (transform.orig_width : ℚ),
      y1 := rclamp ((output.boxes.getD (i * 4 + 1) 0 - transform.offset_y) / transform.scale)
        0 (transform.orig_height : ℚ),
      x2 := rclamp ((output.boxes.getD (i * 4 + 2) 0 - transform.offset_x) / transform.scale)
        0 (transform.orig_width : ℚ),
      y2 := rclamp ((output.boxes.getD (i * 4 + 3) 0 - transform.offset_y) / transform.scale)
        0 (transform.orig_height : ℚ),
      confidence := output.scores.getD i 0,
      class_id := castToUInt32 (output.labels.getD i 0) }

theorem parse_detections_eq_filterMap (τ : ℚ) (out : InferenceOutput)
    (tr : TransformParams) :
    PostProcessor.parse_detections τ out tr =
      (List.range out.num_detections).filterMap (parseStep τ out tr) := by
  unfold PostProcessor.parse_detections
  have main : ∀ (l : List Nat) (acc : List BoundingBox),
      l.foldl (fun detections i =>
        let confidence := out.scores.getD i 0
        if confidence < τ then
          detections
        else
          let box_x1 := out.boxes.getD (i * 4 + 0) 0
          let box_y1 := out.boxes.getD (i * 4 + 1) 0
          let box_x2 := out.boxes.getD (i * 4 + 2) 0
          let box_y2 := out.boxes.getD (i * 4 + 3) 0
          let tx1 := (box_x1 - tr.offset_x) / tr.scale
          let ty1 := (box_y1 - tr.offset_y) / tr.scale
          let tx2 := (box_x2 - tr.offset_x) / tr.scale
          let ty2 := (box_y2 - tr.offset_y) / tr.scale
          let x1 := rclamp tx1 0 (tr.orig_width : ℚ)
          let y1 := rclamp ty1 0 (tr.orig_height : ℚ)
          let x2 := rclamp tx2 0 (tr.orig_width : ℚ)
          let y2 := rclamp ty2 0 (tr.orig_height : ℚ)
          detections ++ [{ x1 := x1, y1 := y1, x2 := x2, y2 := y2,
                           confidence := confidence,
                           class_id := castToUInt32 (out.labels.getD i 0) }]) acc =
        acc ++ l.filterMap (parseStep τ out tr) := by
    intro l
    induction l with
    | nil => intro acc; simp
    | cons i l ih =>
      intro acc
      simp only [List.foldl_cons, List.filterMap_cons, ih, parseStep]
      by_cases h : out.scores.getD i 0 < τ
      · simp only [if_pos h]
      · simp only [if_neg h]
        simp
  exact main (List.range out.num_detections) []

theorem filter_map_eq_filterMap {α β : Type} (p : α → Bool) (f : α → β) (l : List α) :
    (l.filter p).map f = l.filterMap (fun a => if p a then some (f a) else none) := by
  induction l with
  | nil => rfl
  | cons a l ih => by_cases h : p a <;> simp [h, ih]

theorem parse_detections_eq_filter_map (τ : ℚ) (out : InferenceOutput)
    (tr : TransformParams) :
    PostProcessor.parse_detections τ out tr =
      ((List.range out.num_detections).filter
          (fun i => τ ≤ out.scores.getD i 0)).map
        (fun i => (parseStep τ out tr i).getD
          { x1 := 0, y1 := 0, x2 := 0, y2 := 0, confidence := 0, class_id := 0 }) := by
  rw [parse_detections_eq_filterMap, filter_map_eq_filterMap]
  apply List.filterMap_congr
  intro i _
  by_cases h : τ ≤ out.scores.getD i 0
  · have hnlt : ¬ out.scores.getD i 0 < τ := not_lt.mpr h
    simp only [parseStep, if_neg hnlt, decide_eq_true_eq, if_pos h, Option.getD_some]
  · have hlt : out.scores.getD i 0 < τ := not_le.mp h
    simp only [parseStep, if_pos hlt, decide_eq_true_eq, if_neg h]

theorem rclamp_nonneg (v hi : ℚ) : 0 ≤ rclamp v 0 hi := le_max_left 0 _

theorem rclamp_le_hi (v hi : ℚ) (h : 0 ≤ hi) : rclamp v 0 hi ≤ hi :=
  max_le h (min_le_right _ _)

theorem rclamp_mono {a b : ℚ} (lo hi : ℚ) (h : a ≤ b) :
    rclamp a lo hi ≤ rclamp b lo hi :=
  max_le_max le_rfl (min_le_min h le_rfl)

/-- C4: with a positive scale, PostProcessor::parse_detections
returns exactly the raw detections whose score is at least the
confidence threshold, in the engine's original order, with each
coordinate mapped by `orig = (letterbox - offset) / scale` then
clamped into `[0, orig_dim]`, and with the raw score carried through
as the confidence (refinement of the spec-side description
`parse_detections_specSide`). -/
theorem parse_detections_refines_spec (τ : ℚ) (out : InferenceOutput)
    (tr : TransformParams) (hscale : 0 < tr.scale) :
    PostProcessor.parse_detections τ out tr = parse_detections_specSide τ out tr := by
  rw [parse_detections_eq_filter_map]
  unfold parse_detections_specSide
  apply List.map_congr_left
  intro i hi
  rw [List.mem_filter] at hi
  have h : τ ≤ out.scores.getD i 0 := by simpa using hi.2
  have hnlt : ¬ out.scores.getD i 0 < τ := not_lt.mpr h
  simp only [parseStep, if_neg hnlt, Option.getD_some]

theorem parse_detections_refines_spec_witness :
    PostProcessor.parse_detections (1 / 2) ⟨[3], [1, 2, 3, 4], [1], 1⟩ ⟨10, 10, 2, 1, 1⟩ =
      parse_detections_specSide (1 / 2) ⟨[3], [1, 2, 3, 4], [1], 1⟩ ⟨10, 10, 2, 1, 1⟩ :=
  parse_detections_refines_spec (1 / 2) ⟨[3], [1, 2, 3, 4], [1], 1⟩ ⟨10, 10, 2, 1, 1⟩
    (by norm_num)

/-- C5 counterexample: the four coordinates are clamped
independently, so a raw detection whose letterbox box is reversed
(`x1 > x2`) passes the filter and is emitted with `x1 > x2`: with
threshold 1/2, one raw detection with score 1, letterbox box
`(10, 0, 5, 1)`, identity transform onto a 20-by-20 image, the
emitted box has `x1 = 10 > x2 = 5`, violating
`0 ≤ x1 ≤ x2 ≤ orig_width`. -/
theorem parse_detections_box_order_violated :
    ¬ (∀ b ∈ PostProcessor.parse_detections (1 / 2)
          ⟨[0], [10, 0, 5, 1], [1], 1⟩ ⟨20, 20, 1, 0, 0⟩,
        0 ≤ b.x1 ∧ b.x1 ≤ b.x2 ∧ b.x2 ≤ ((20 : Nat) : ℚ) ∧
        0 ≤ b.y1 ∧ b.y1 ≤ b.y2 ∧ b.y2 ≤ ((20 : Nat) : ℚ)) := by
  intro hall
  have heval : PostProcessor.parse_detections (1 / 2)
      ⟨[0], [10, 0, 5, 1], [1], 1⟩ ⟨20, 20, 1, 0, 0⟩ =
      [⟨10, 0, 5, 1, 1, 0⟩] := by
    simp only [PostProcessor.parse_detections, List.range_succ, List.range_zero,
      List.nil_append, List.foldl_cons, List.foldl_nil, List.getD]
    norm_num [rclamp, castToUInt32]
  have hb := hall ⟨10, 0, 5, 1, 1, 0⟩ (by rw [heval]; exact List.mem_singleton_self _)
  have h10 : (10 : ℚ) ≤ 5 := hb.2.1
  norm_num at h10

/-- C5 (amended): every coordinate of every box emitted by
PostProcessor::parse_detections lies in `[0, orig_dim]` for any
transform; and when additionally the scale is positive and every raw
letterbox box is well ordered (`x1 ≤ x2` and `y1 ≤ y2`), the emitted
box also satisfies `x1 ≤ x2` and `y1 ≤ y2`.  The unconditional
`x1 ≤ x2` of the original claim fails because the coordinates are
clamped independently (see the counterexample). -/
theorem parse_detections_coords_clamped (τ : ℚ) (out : InferenceOutput)
    (tr : TransformParams) :
    ∀ b ∈ PostProcessor.parse_detections τ out tr,
      (0 ≤ b.x1 ∧ b.x1 ≤ (tr.orig_width : ℚ)) ∧
      (0 ≤ b.x2 ∧ b.x2 ≤ (tr.orig_width : ℚ)) ∧
      (0 ≤ b.y1 ∧ b.y1 ≤ (tr.orig_height : ℚ)) ∧
      (0 ≤ b.y2 ∧ b.y2 ≤ (tr.orig_height : ℚ)) ∧
      (0 < tr.scale →
        (∀ i, i < out.num_detections →
          out.boxes.getD (i * 4 + 0) 0 ≤ out.boxes.getD (i * 4 + 2) 0 ∧
          out.boxes.getD (i * 4 + 1) 0 ≤ out.boxes.getD (i * 4 + 3) 0) →
        b.x1 ≤ b.x2 ∧ b.y1 ≤ b.y2) := by
  intro b hb
  rw [parse_detections_eq_filterMap] at hb
  obtain ⟨i, hi, hstep⟩ := List.mem_filterMap.mp hb
  rw [List.mem_range] at hi
  unfold parseStep at hstep
  split at hstep
  · exact absurd hstep (by simp)
  · rw [Option.some.injEq] at hstep
    subst hstep
    refine ⟨⟨rclamp_nonneg _ _, rclamp_le_hi _ _ (Nat.cast_nonneg _)⟩,
      ⟨rclamp_nonneg _ _, rclamp_le_hi _ _ (Nat.cast_nonneg _)⟩,
      ⟨rclamp_nonneg _ _, rclamp_le_hi _ _ (Nat.cast_nonneg _)⟩,
      ⟨rclamp_nonneg _ _, rclamp_le_hi _ _ (Nat.cast_nonneg _)⟩,
      ?_⟩
    intro hscale hord
    obtain ⟨hx, hy⟩ := hord i hi
    constructor
    · apply rclamp_mono
      gcongr
    · apply rclamp_mono
      gcongr

theorem parse_detections_coords_clamped_witness :
    (0 ≤ (⟨1, 1, 2, 2, 1, 0⟩ : BoundingBox).x1 ∧
      (⟨1, 1, 2, 2, 1, 0⟩ : BoundingBox).x1 ≤ ((10 : Nat) : ℚ)) ∧
    (⟨1, 1, 2, 2, 1, 0⟩ : BoundingBox).x1 ≤ (⟨1, 1, 2, 2, 1, 0⟩ : BoundingBox).x2 ∧
    (⟨1, 1, 2, 2, 1, 0⟩ : BoundingBox).y1 ≤ (⟨1, 1, 2, 2, 1, 0⟩ : BoundingBox).y2 := by
  have hmem : (⟨1, 1, 2, 2, 1, 0⟩ : BoundingBox) ∈
      PostProcessor.parse_detections (1 / 2) ⟨[0], [1, 1, 2, 2], [1], 1⟩ ⟨10, 10, 1, 0, 0⟩ := by
    have heval : PostProcessor.parse_detections (1 / 2)
        ⟨[0], [1, 1, 2, 2], [1], 1⟩ ⟨10, 10, 1, 0, 0⟩ = [⟨1, 1, 2, 2, 1, 0⟩] := by
      simp only [PostProcessor.parse_detections, List.range_succ, List.range_zero,
        List.nil_append, List.foldl_cons, List.foldl_nil, List.getD]
      norm_num [rclamp, castToUInt32]
    rw [heval]
    exact List.mem_singleton_self _
  have h := parse_detections_coords_clamped (1 / 2)
    ⟨[0], [1, 1, 2, 2], [1], 1⟩ ⟨10, 10, 1, 0, 0⟩ ⟨1, 1, 2, 2, 1, 0⟩ hmem
  have hord : ∀ i, i < (1 : Nat) →
      ([1, 1, 2, 2] : List ℚ).getD (i * 4 + 0) 0 ≤ ([1, 1, 2, 2] : List ℚ).getD (i * 4 + 2) 0 ∧
      ([1, 1, 2, 2] : List ℚ).getD (i * 4 + 1) 0 ≤ ([1, 1, 2, 2] : List ℚ).getD (i * 4 + 3) 0 := by
    intro i hilt
    interval_cases i
    norm_num [List.getD]
  exact ⟨h.1, (h.2.2.2.2 (by norm_num) hord).1, (h.2.2.2.2 (by norm_num) hord).2⟩

/-- C10: every box emitted by PostProcessor::parse_detections
carries as class_id the raw 64-bit signed label reduced modulo
`2 ^ 32` (the `static_cast<uint32_t>`): labels that are negative or
at least `2 ^ 32` are silently wrapped, and the labels never affect
which detections are kept. -/
theorem parse_detections_class_id_wraps (τ : ℚ) (out : InferenceOutput)
    (tr : TransformParams) :
    (∀ i, i < (PostProcessor.parse_detections τ out tr).length →
      ((PostProcessor.parse_detections τ out tr).getD i ⟨0, 0, 0, 0, 0, 0⟩).class_id =
        ((out.labels.getD (((List.range out.num_detections).filter
            (fun j => τ ≤ out.scores.getD j 0)).getD i 0) 0) % (2 ^ 32 : ℤ)).toNat) ∧
    (∀ labels2, (PostProcessor.parse_detections τ
        { out with labels := labels2 } tr).length =
      (PostProcessor.parse_detections τ out tr).length) := by
  constructor
  · intro i hi
    have hi' : i < ((List.range out.num_detections).filter
        (fun j => τ ≤ out.scores.getD j 0)).length := by
      rw [parse_detections_eq_filter_map, List.length_map] at hi
      exact hi
    rw [parse_detections_eq_filter_map]
    rw [List.getD_eq_getElem _ _ (by rw [List.length_map]; exact hi')]
    rw [List.getElem_map]
    rw [List.getD_eq_getElem _ _ hi']
    have hmem : ((List.range out.num_detections).filter
        (fun j => τ ≤ out.scores.getD j 0))[i] ∈
        (List.range out.num_detections).filter
          (fun j => τ ≤ out.scores.getD j 0) :=
      List.getElem_mem hi'
    rw [List.mem_filter] at hmem
    have hτ : τ ≤ out.scores.getD (((List.range out.num_detections).filter
        (fun j => τ ≤ out.scores.getD j 0))[i]) 0 := by simpa using hmem.2
    have hnlt := not_lt.mpr hτ
    simp only [parseStep, if_neg hnlt, Option.getD_some, castToUInt32]
  · intro labels2
    rw [parse_detections_eq_filter_map, parse_detections_eq_filter_map,
      List.length_map, List.length_map]

theorem parse_detections_class_id_wraps_witness :
    ((PostProcessor.parse_detections (1 / 2) ⟨[-1], [1, 1, 2, 2], [1], 1⟩
        ⟨10, 10, 1, 0, 0⟩).getD 0 ⟨0, 0, 0, 0, 0, 0⟩).class_id = 4294967295 := by
  have heval : PostProcessor.parse_detections (1 / 2)
      ⟨[-1], [1, 1, 2, 2], [1], 1⟩ ⟨10, 10, 1, 0, 0⟩ =
      [⟨1, 1, 2, 2, 1, 4294967295⟩] := by
    simp only [PostProcessor.parse_detections, List.range_succ, List.range_zero,
      List.nil_append, List.foldl_cons, List.foldl_nil, List.getD]
    norm_num [rclamp, castToUInt32]
    decide
  have h := (parse_detections_class_id_wraps (1 / 2)
    ⟨[-1], [1, 1, 2, 2], [1], 1⟩ ⟨10, 10, 1, 0, 0⟩).1 0 (by rw [heval]; simp)
  rw [h]
  simp only [List.range_succ, List.range_zero, List.nil_append, List.filter_cons,
    List.filter_nil, List.getD]
  norm_num
  decide

theorem drain_total (q : Nat) : BridgeSemaphore.drain q = (q, 0) := by
  induction q with
  | zero =>
    unfold BridgeSemaphore.drain
    simp [BridgeSemaphore.try_wait]
  | succ n ih =>
    unfold BridgeSemaphore.drain
    simp [BridgeSemaphore.try_wait, ih]

theorem write_fail_noop (st : Slot) (ser : List Nat)
    (h : (DetectionWriter.write st ser).2 = false) :
    (DetectionWriter.write st ser).1 = st := by
  by_cases hc : HEADER_SIZE + ser.length > st.size
  · simp only [DetectionWriter.write, if_pos hc]
  · simp only [DetectionWriter.write, if_neg hc] at h
    exact absurd h (by simp)

/-- C6: when the signal queue holds `k ≥ 1` tokens at the start of a
loop iteration, `wait()` consumes one token, `drain()` consumes the
remaining `k - 1` tokens and returns `k - 1`, leaving the queue
empty; and when the frame is readable and inference succeeds, the
iteration processes exactly one frame while `frames_skipped` rises
by exactly `k - 1`. -/
theorem loop_iteration_drains_to_latest
    (serialize : Nat → Nat → Nat → List BoundingBox → List Nat)
    (st : LoopState) (fr : FrameRec) (px : List Nat)
    (scale off_x off_y : ℚ) (output : InferenceOutput) (postOk : Bool)
    (hq : 1 ≤ st.queue) (hpx : fr.pixels = some px) :
    BridgeSemaphore.wait st.queue = some (st.queue - 1) ∧
    BridgeSemaphore.drain (st.queue - 1) = (st.queue - 1, 0) ∧
    (loopIter serialize st (some fr) scale off_x off_y (some output) postOk).queue = 0 ∧
    (loopIter serialize st (some fr) scale off_x off_y (some output) postOk).frames_skipped =
      st.frames_skipped + (st.queue - 1) ∧
    (loopIter serialize st (some fr) scale off_x off_y (some output) postOk).frames_processed =
      st.frames_processed + 1 := by
  have hw : BridgeSemaphore.wait st.queue = some (st.queue - 1) := by
    unfold BridgeSemaphore.wait
    rw [if_pos (by omega)]
  have hd : BridgeSemaphore.drain (st.queue - 1) = (st.queue - 1, 0) := drain_total _
  have hsk : (if 0 < st.queue - 1 then st.frames_skipped + (st.queue - 1)
      else st.frames_skipped) = st.frames_skipped + (st.queue - 1) := by
    rcases Nat.eq_zero_or_pos (st.queue - 1) with h0 | hpos
    · simp [h0]
    · simp [hpos]
  refine ⟨hw, hd, ?_, ?_, ?_⟩ <;>
    cases postOk <;>
      simp only [loopIter, hw, hd, hpx, hsk, Bool.false_eq_true, if_false, if_true,
        ite_true, ite_false]

theorem loop_iteration_drains_to_latest_witness :
    BridgeSemaphore.wait 3 = some 2 ∧
    BridgeSemaphore.drain 2 = (2, 0) ∧
    (loopIter (fun _ _ _ _ => []) ⟨3, ⟨100, 0, []⟩, 0, 0, 0, 0⟩
      (some ⟨1, 2, 3, 4, 4, false, some []⟩) 1 0 0
      (some ⟨[], [], [], 0⟩) true).queue = 0 ∧
    (loopIter (fun _ _ _ _ => []) ⟨3, ⟨100, 0, []⟩, 0, 0, 0, 0⟩
      (some ⟨1, 2, 3, 4, 4, false, some []⟩) 1 0 0
      (some ⟨[], [], [], 0⟩) true).frames_skipped = 0 + 2 ∧
    (loopIter (fun _ _ _ _ => []) ⟨3, ⟨100, 0, []⟩, 0, 0, 0, 0⟩
      (some ⟨1, 2, 3, 4, 4, false, some []⟩) 1 0 0
      (some ⟨[], [], [], 0⟩) true).frames_processed = 0 + 1 :=
  loop_iteration_drains_to_latest (fun _ _ _ _ => []) ⟨3, ⟨100, 0, []⟩, 0, 0, 0, 0⟩
    ⟨1, 2, 3, 4, 4, false, some []⟩ [] 1 0 0 ⟨[], [], [], 0⟩ true
    (by norm_num) rfl

/-- C9 counterexample: an iteration whose detection write fails
(slot of size 10 cannot hold an 11-byte record) still posts the
controller signal, still increments frames_processed, and still adds
the frame's one detection to total_detections — the driver does not
skip the remaining steps of the iteration. -/
theorem loop_iteration_write_failure_still_counts :
    (DetectionWriter.write ⟨10, 0, []⟩ [9, 9, 9]).2 = false ∧
    (loopIter (fun _ _ _ _ => [9, 9, 9]) ⟨1, ⟨10, 0, []⟩, 0, 0, 0, 0⟩
      (some ⟨1, 2, 3, 4, 4, false, some []⟩) 1 0 0
      (some ⟨[0], [1, 1, 2, 2], [1], 1⟩) true).frames_processed = 1 ∧
    (loopIter (fun _ _ _ _ => [9, 9, 9]) ⟨1, ⟨10, 0, []⟩, 0, 0, 0, 0⟩
      (some ⟨1, 2, 3, 4, 4, false, some []⟩) 1 0 0
      (some ⟨[0], [1, 1, 2, 2], [1], 1⟩) true).controller_posts = 1 ∧
    (loopIter (fun _ _ _ _ => [9, 9, 9]) ⟨1, ⟨10, 0, []⟩, 0, 0, 0, 0⟩
      (some ⟨1, 2, 3, 4, 4, false, some []⟩) 1 0 0
      (some ⟨[0], [1, 1, 2, 2], [1], 1⟩) true).total_detections = 1 := by
  have hparse : PostProcessor.parse_detections (1 / 2)
      ⟨[0], [1, 1, 2, 2], [1], 1⟩ ⟨4, 4, 1, 0, 0⟩ = [⟨1, 1, 2, 2, 1, 0⟩] := by
    simp only [PostProcessor.parse_detections, List.range_succ, List.range_zero,
      List.nil_append, List.foldl_cons, List.foldl_nil, List.getD]
    norm_num [rclamp, castToUInt32]
  have hw : BridgeSemaphore.wait 1 = some 0 := by
    unfold BridgeSemaphore.wait
    norm_num
  refine ⟨by decide, ?_, ?_, ?_⟩ <;>
    simp only [loopIter, hw, drain_total, hparse, DetectionWriter.write,
      writeBytesAt] <;>
    norm_num [HEADER_SIZE]

/-- C9 (amended): in an event-loop iteration where the frame is read,
inference succeeds, and detection_writer.write fails, the driver
only logs the failure and proceeds with the remaining steps of the
iteration: the shared slot is left unmutated, the frame's detections
are still added to total_detections, the controller signal is still
posted, and frames_processed is still incremented. -/
theorem loop_iteration_write_failure_continues
    (serialize : Nat → Nat → Nat → List BoundingBox → List Nat)
    (st : LoopState) (fr : FrameRec) (px : List Nat)
    (scale off_x off_y : ℚ) (output : InferenceOutput)
    (hq : 1 ≤ st.queue) (hpx : fr.pixels = some px)
    (hfail : (DetectionWriter.write st.slot
        (serialize fr.frame_number fr.timestamp_ns fr.camera_id
          (PostProcessor.parse_detections (1 / 2) output
            ⟨fr.width, fr.height, scale, off_x, off_y⟩))).2 = false) :
    (loopIter serialize st (some fr) scale off_x off_y (some output) true).slot = st.slot ∧
    (loopIter serialize st (some fr) scale off_x off_y (some output) true).total_detections =
      st.total_detections +
        (PostProcessor.parse_detections (1 / 2) output
          ⟨fr.width, fr.height, scale, off_x, off_y⟩).length ∧
    (loopIter serialize st (some fr) scale off_x off_y (some output) true).controller_posts =
      st.controller_posts + 1 ∧
    (loopIter serialize st (some fr) scale off_x off_y (some output) true).frames_processed =
      st.frames_processed + 1 := by
  have hw : BridgeSemaphore.wait st.queue = some (st.queue - 1) := by
    unfold BridgeSemaphore.wait
    rw [if_pos (by omega)]
  have hnoop := write_fail_noop _ _ hfail
  refine ⟨?_, ?_, ?_, ?_⟩ <;>
    simp only [loopIter, hw, drain_total, hpx, ite_true, ite_false, hnoop]

theorem loop_iteration_write_failure_continues_witness :
    (loopIter (fun _ _ _ _ => [9, 9, 9]) ⟨1, ⟨10, 0, []⟩, 0, 0, 0, 0⟩
      (some ⟨1, 2, 3, 4, 4, false, some []⟩) 1 0 0
      (some ⟨[], [], [], 0⟩) true).slot = (⟨10, 0, []⟩ : Slot) ∧
    (loopIter (fun _ _ _ _ => [9, 9, 9]) ⟨1, ⟨10, 0, []⟩, 0, 0, 0, 0⟩
      (some ⟨1, 2, 3, 4, 4, false, some []⟩) 1 0 0
      (some ⟨[], [], [], 0⟩) true).total_detections =
      0 + (PostProcessor.parse_detections (1 / 2) ⟨[], [], [], 0⟩ ⟨4, 4, 1, 0, 0⟩).length ∧
    (loopIter (fun _ _ _ _ => [9, 9, 9]) ⟨1, ⟨10, 0, []⟩, 0, 0, 0, 0⟩
      (some ⟨1, 2, 3, 4, 4, false, some []⟩) 1 0 0
      (some ⟨[], [], [], 0⟩) true).controller_posts = 0 + 1 ∧
    (loopIter (fun _ _ _ _ => [9, 9, 9]) ⟨1, ⟨10, 0, []⟩, 0, 0, 0, 0⟩
      (some ⟨1, 2, 3, 4, 4, false, some []⟩) 1 0 0
      (some ⟨[], [], [], 0⟩) true).frames_processed = 0 + 1 :=
  loop_iteration_write_failure_continues (fun _ _ _ _ => [9, 9, 9])
    ⟨1, ⟨10, 0, []⟩, 0, 0, 0, 0⟩ ⟨1, 2, 3, 4, 4, false, some []⟩ [] 1 0 0
    ⟨[], [], [], 0⟩ (by norm_num) rfl (by decide)
